import Mathlib

/-!
Verification development for the AdAware-AI fusion & scoring engine.

Shallow embedding of `backend/services/classifier.py`,
`backend/services/policy_rules.py` and the final-risk-label step of
`backend/services/pipeline.py`.  Python strings are modelled as `List Char`
(`String` for atomic tags), Python floats as `ℚ` (all arithmetic in the
embedded code is exact on the rationals involved), `None`-able values as
`Option`, and code that can raise as functions into `Option`.
-/

/-- ASCII whitespace set stripped by Python `str.strip()` and matched by
regex `\s` (space, tab, newline, carriage return, vertical tab, form feed). -/
def isPySpace (c : Char) : Bool :=
  c = ' ' || c = Char.ofNat 9 || c = Char.ofNat 10 || c = Char.ofNat 13 ||
    c = Char.ofNat 11 || c = Char.ofNat 12

/-- Python `str.strip()` on a character list: drop whitespace from both ends. -/
def stripChars (s : List Char) : List Char :=
  ((s.dropWhile isPySpace).reverse.dropWhile isPySpace).reverse

/-- Python `str.strip()` on a `String`. -/
def pyStrip (s : String) : String :=
  String.mk (stripChars s.data)

/-- Python `str.lower()` on a character list. -/
def lowerChars (s : List Char) : List Char :=
  s.map Char.toLower

/-- Python substring containment `kw in t`. -/
def containsSub (t kw : List Char) : Bool :=
  match t with
  | [] => kw.isEmpty
  | c :: rest => kw.isPrefixOf (c :: rest) || containsSub rest kw

/-- Python `t.find(kw, start)`: the least index `i ≥ start` at which `kw`
occurs in `t` (`none` models the return value `-1`). -/
def findFrom (t kw : List Char) (start : Nat) : Option Nat :=
  ((List.range (t.length + 1)).filter
    (fun i => decide (start ≤ i) && kw.isPrefixOf (t.drop i))).head?

/-- The occurrence indices collected by the `while True` loop of
`_locate_spans` (classifier.py lines 46-59): repeated `find`, each time
advancing past the match.  Fuel `t.length + 1` is enough for any non-empty
keyword (every step advances `start` by `kw.length ≥ 1`). -/
def locOccsAux (t kw : List Char) : Nat → Nat → List Nat
  | _, 0 => []
  | start, fuel + 1 =>
    match findFrom t kw start with
    | none => []
    | some idx => idx :: locOccsAux t kw (idx + kw.length) fuel

def locOccs (t kw : List Char) : List Nat :=
  locOccsAux t kw 0 (t.length + 1)

/-- The single-quote character, used inside generated reason strings. -/
def squoteChar : Char := Char.ofNat 39

def squote : String := String.mk [squoteChar]

/-- The span dictionaries appended by `_locate_spans` (classifier.py 51-58). -/
structure EvidenceSpan where
  kind : String
  text : List Char
  start : Int
  stop : Int
  reason : String
  category : String
deriving DecidableEq, Repr

/-- `_locate_spans(text_lower, keywords, kind, category_override)`
(classifier.py lines 39-60).  The `Option` input models that Python would
pass either a string or `None`; `if not text_lower` makes both `None` and
the empty string return `[]`. -/
def locate_spans (textLower : Option (List Char)) (keywords : List (List Char))
    (kind : String) (categoryOverride : Option String) : List EvidenceSpan :=
  match textLower with
  | none => []
  | some t =>
    if t.isEmpty then [] else
    (keywords.map (fun kw =>
      (locOccs t kw).map (fun idx =>
        { kind := kind
          text := kw
          start := Int.ofNat idx
          stop := Int.ofNat (idx + kw.length)
          reason := "Contains phrase " ++ squote ++ String.mk kw ++ squote
          category := categoryOverride.getD
            (if kind = "risky_phrase" then "urgency" else "other") }))).flatten

/-- `SCAM_KEYWORDS` (classifier.py lines 20-25). -/
def SCAM_KEYWORDS : List (List Char) :=
  ["win cash".data, "winner".data, "congratulations".data,
   "earn money fast".data, "get rich quick".data,
   "double your money".data, "crypto scheme".data, "guaranteed returns".data,
   "lottery".data, "jackpot".data, "free iphone".data, "free phone".data,
   "risk free".data, "no risk".data, "investment opportunity".data]

/-- `HEALTH_KEYWORDS` (classifier.py lines 28-32). -/
def HEALTH_KEYWORDS : List (List Char) :=
  ["caffeine".data, "energy drink".data, "supplement".data,
   "weight loss".data, "diet pill".data,
   "cure".data, "remedy".data, "detox".data, "fat burner".data,
   "testosterone".data,
   "not for children".data, "pregnant".data, "consult a doctor".data]

/-- `PROMO_KEYWORDS` (classifier.py lines 34-37). -/
def PROMO_KEYWORDS : List (List Char) :=
  ["sale".data, "discount".data, "% off".data, "offer".data, "deal".data,
   "limited time".data,
   "buy now".data, "shop now".data, "order now".data, "flash sale".data]

/-- Keep-first deduplication of a string list; models Python
`list(set(xs))` for the subcategory lists.  Python's `set` iteration order
is unspecified; in every use below the input is already duplicate-free, so
only membership matters and this keep-first model is exact. -/
def dkfAux (seen : List String) : List String → List String
  | [] => []
  | x :: xs => if x ∈ seen then dkfAux seen xs else x :: dkfAux (x :: seen) xs

def pySetList (l : List String) : List String := dkfAux [] l

/-- `extract_evidence_spans(text)` (classifier.py lines 246-264).
`none` input models Python `None`: the unguarded `text.lower()` raises
`AttributeError`, modelled by returning `none`. -/
def extract_evidence_spans (text : Option (List Char)) :
    Option (List EvidenceSpan × List String) :=
  match text with
  | none => none
  | some txt =>
    let t := lowerChars txt
    let sSpans := locate_spans (some t) SCAM_KEYWORDS "risky_phrase" (some "urgency")
    let hSpans := locate_spans (some t) HEALTH_KEYWORDS "advisory_phrase" (some "health-claim")
    let subcats := (if sSpans.isEmpty then [] else ["urgency"]) ++
      (if hSpans.isEmpty then [] else ["health-claim"])
    some (sSpans ++ hSpans, pySetList subcats)

/-- Regex word character `\w` (ASCII range; the embedded texts are ASCII). -/
def isWordChar (c : Char) : Bool :=
  c.isAlpha || c.isDigit || c = '_'

/-- A match of the pattern `\b\d{2,}\s*% off\b` starting at position `i` of
`t`.  Because a digit cannot be followed by `%` unless the greedy `\d{2,}`
consumed the whole digit run, a match at `i` exists iff the maximal digit
run at `i` has length at least two and is followed by `\s*`, the literal
`% off`, and a word boundary. -/
def matchPctOffAt (t : List Char) (i : Nat) : Bool :=
  (decide (i = 0) || !isWordChar (t.getD (i - 1) ' ')) &&
  (let rest := t.drop i
   let ds := rest.takeWhile Char.isDigit
   decide (2 ≤ ds.length) &&
   (let rest2 := (rest.drop ds.length).dropWhile isPySpace
    "% off".data.isPrefixOf rest2 &&
    (let after := rest2.drop 5
     after.isEmpty || !isWordChar (after.headD ' '))))

/-- `re.search(r"\b\d{2,}\s*% off\b", t)` viewed as a Boolean
(classifier.py line 84). -/
def bigPercentOff (t : List Char) : Bool :=
  (List.range t.length).any (fun i => matchPctOffAt t i)

/-- `predict_scam_label(text)` (classifier.py lines 67-96).  `none` models
Python `None`; `if not text` sends both `None` and `""` to the generic
default. -/
def predict_scam_label (text : Option (List Char)) : String × ℚ :=
  if text = none ∨ text = some [] then ("generic", 3/10) else
  let t := lowerChars (text.getD [])
  if SCAM_KEYWORDS.any (fun k => containsSub t k) then ("scam_like", 85/100)
  else
    let riskyTriggers : Nat :=
      (if containsSub t "100% free".data || containsSub t "free money".data
        then 1 else 0) +
      (if bigPercentOff t &&
          (containsSub t "90%".data || containsSub t "95%".data ||
            containsSub t "100%".data)
        then 1 else 0)
    if 2 ≤ riskyTriggers then ("risky_promo", 75/100)
    else if PROMO_KEYWORDS.any (fun k => containsSub t k) then ("promotion", 7/10)
    else ("generic", 1/2)

/-- `locate_health_advisories(text)` (classifier.py lines 103-124).  The
final `list(set(advisories))` is modelled by keep-first deduplication; the
three possible advisories are pairwise distinct, so only membership is
observable. -/
def locate_health_advisories (text : Option (List Char)) : List String :=
  if text = none ∨ text = some [] then [] else
  let t := lowerChars (text.getD [])
  let advisories :=
    (if containsSub t "caffeine".data || containsSub t "energy".data then
      (if containsSub t "high caffeine".data then ["High Caffeine Content"]
       else if containsSub t "energy drink".data then
        ["Health Advisory: Energy Drink"]
       else [])
     else []) ++
    (if containsSub t "supplement".data || containsSub t "diet".data ||
        containsSub t "weight loss".data then
      ["Dietary Supplement Warning"] else []) ++
    (if containsSub t "crypto".data || containsSub t "bitcoin".data then
      ["Financial Risk Advisory"] else [])
  pySetList advisories

/-- `compute_model_confidence` (classifier.py lines 131-175). -/
def compute_model_confidence (vision_success : Bool) (ocr_quality_score : ℚ)
    (catalog_match : Bool) (image_text_sim : Option ℚ) : ℚ :=
  let score : ℚ := 0
  let score := if 0 < ocr_quality_score ∨ vision_success then score + 3/10 else score
  let score := if catalog_match then score + 35/100 else score
  let score :=
    if 8/10 < ocr_quality_score then score + 15/100
    else if 5/10 < ocr_quality_score then score + 1/10
    else score
  let score :=
    match image_text_sim with
    | some sim =>
      if 1/2 < sim then score + 15/100
      else if 1/5 < sim then score + 1/10
      else score
    | none => if catalog_match then score + 1/10 else score
  min (95/100) (max (15/100) score)

/-- `compute_legitimacy_score` (classifier.py lines 182-239).  `catalog_trust`
is an optional string (`'high' | 'medium' | 'low' | None` in the callers);
`not catalog_trust` is Python truthiness, satisfied by `None` and `""`. -/
def compute_legitimacy_score (scam_label : String) (catalog_trust : Option String)
    (domain_trust : String) (sentiment_score : ℚ) (urgency_count : ℤ) : ℚ :=
  let score : ℚ := 50
  let score :=
    if catalog_trust = some "high" then 90
    else if catalog_trust = some "medium" then 75
    else if catalog_trust = some "low" then 30
    else score
  let score :=
    if catalog_trust = none ∨ catalog_trust = some "" ∨ catalog_trust = some "medium" then
      if scam_label = "scam_like" then min score 30 - 20
      else if scam_label = "risky_promo" then min score 60 - 10
      else if scam_label = "promotion" then score + 5
      else score
    else score
  let domainPenalty : ℚ :=
    if catalog_trust = some "high" then 0
    else if catalog_trust = some "medium" then 10
    else 40
  let score :=
    if domain_trust = "suspicious" then score - domainPenalty
    else if domain_trust = "trusted" then score + 10
    else score
  let score := if 2 < urgency_count then score - 10 else score
  let score := if 5 < urgency_count then score - 15 else score
  max 0 (min 100 score)

/-- `RuleTrigger` (schemas.py lines 45-48). -/
structure RuleTrigger where
  rule_id : String
  description : String
  severity : String
deriving DecidableEq, Repr

/-- The fixed FOMO phrase list of rule C1 (policy_rules.py line 35).
`"don't miss"` is built around an explicit quote character. -/
def FOMO_PHRASES : List (List Char) :=
  ["limited time".data, "only today".data, "act now".data,
   ("don" ++ squote ++ "t miss").data]

/-- `evaluate_rules(text)` (policy_rules.py lines 5-43).  `(text or "")`
makes the function total over `None` and every string. -/
def evaluate_rules (text : Option (List Char)) : List RuleTrigger :=
  let tLower := lowerChars (text.getD [])
  let triggers : List RuleTrigger := []
  let triggers :=
    if (containsSub tLower "cure".data || containsSub tLower "remedy".data) &&
        (containsSub tLower "guaranteed".data || containsSub tLower "100%".data)
    then triggers ++ [⟨"H1", "Guaranteed cure/remedy claim detected", "high"⟩]
    else triggers
  let triggers :=
    if containsSub tLower "double your money".data ||
        containsSub tLower "guaranteed returns".data
    then triggers ++ [⟨"F1", "Unrealistic financial promise", "high"⟩]
    else triggers
  let triggers :=
    if containsSub tLower "before".data && containsSub tLower "after".data
    then triggers ++ [⟨"B1", "Before/After comparison usage", "medium"⟩]
    else triggers
  let triggers :=
    if FOMO_PHRASES.any (fun p => containsSub tLower p)
    then triggers ++ [⟨"C1", "High urgency / FOMO tactics", "medium"⟩]
    else triggers
  triggers

/-- JSON-like Python values, as they appear in the loosely-typed `report`
dictionaries threaded through `classifier.py`. -/
inductive Val where
  | vnone : Val
  | vbool (b : Bool) : Val
  | vnum (q : ℚ) : Val
  | vstr (s : String) : Val
  | vlist (l : List Val) : Val
  | vdict (kvs : List (String × Val)) : Val

/-- First-match association-list lookup; Python dict keys are unique, so
this is exact. -/
def lookupKV : List (String × Val) → String → Option Val
  | [], _ => none
  | (k, v) :: rest, key => if k = key then some v else lookupKV rest key

/-- `d.get(key)` on a dict value (and `None`-like failure elsewhere). -/
def vget : Val → String → Option Val
  | Val.vdict kvs, key => lookupKV kvs key
  | _, _ => none

/-- `d.get(key, default)`. -/
def vgetD (v : Val) (key : String) (default : Val) : Val :=
  (vget v key).getD default

def Val.isDict : Val → Bool
  | Val.vdict _ => true
  | _ => false

/-- Python truthiness of a value. -/
def pyTruthy : Val → Bool
  | Val.vnone => false
  | Val.vbool b => b
  | Val.vnum q => decide (q ≠ 0)
  | Val.vstr s => !s.isEmpty
  | Val.vlist l => !l.isEmpty
  | Val.vdict kvs => !kvs.isEmpty

/-- Numeric value of a decimal digit list, e.g. `['4','2'] ↦ 42`. -/
def digitsVal (l : List Char) : ℚ :=
  l.foldl (fun a c => a * 10 + ((c.toNat - 48 : Nat) : ℚ)) 0

/-- Python `float(s)` on a string, for plain decimal literals:
optional surrounding whitespace, optional sign, digits with an optional
fractional part.  Exotic accepted forms (exponents, `inf`, `nan`,
underscores) are not produced anywhere in this codebase and are modelled
as failure. -/
def parseUnsigned (s : List Char) : Option ℚ :=
  let intPart := s.takeWhile Char.isDigit
  let rest := s.drop intPart.length
  match rest with
  | [] => if intPart.isEmpty then none else some (digitsVal intPart)
  | c :: frac =>
    if c = '.' && frac.all Char.isDigit && !(intPart.isEmpty && frac.isEmpty)
    then some (digitsVal intPart + digitsVal frac / (10 : ℚ) ^ frac.length)
    else none

def pyParseFloat (s : String) : Option ℚ :=
  match stripChars s.data with
  | c :: r =>
    if c = '+' then parseUnsigned r
    else if c = '-' then (parseUnsigned r).map Neg.neg
    else parseUnsigned (c :: r)
  | [] => none

/-- Python `float(x)` with exceptions mapped to `none` (`float(None)` also
fails, matching the explicit `None` guard in `_to_float`). -/
def pyFloat : Val → Option ℚ
  | Val.vnone => none
  | Val.vbool b => some (if b then 1 else 0)
  | Val.vnum q => some q
  | Val.vstr s => pyParseFloat s
  | Val.vlist _ => none
  | Val.vdict _ => none

/-- Python `str(x)`.  Only the string case (`str` is the identity on
strings) is load-bearing below; the renderings of the other constructors
approximate CPython output and are never compared against. -/
def pyStr : Val → String
  | Val.vnone => "None"
  | Val.vbool b => if b then "True" else "False"
  | Val.vnum q => if q.den = 1 then toString q.num ++ ".0" else toString q.num ++ "/" ++ toString q.den
  | Val.vstr s => s
  | Val.vlist _ => "<list>"
  | Val.vdict _ => "<dict>"

/-- Python `round(x)` : round half to even (banker's rounding). -/
def pyRound (q : ℚ) : ℤ :=
  let f := Int.floor q
  let r := q - f
  if r < 1/2 then f
  else if 1/2 < r then f + 1
  else if Even f then f else f + 1

/-- Python `round(x, 2)`. -/
def pyRound2 (q : ℚ) : ℚ :=
  (pyRound (q * 100) : ℚ) / 100

/-- The guard `isinstance(x, str) and x.strip()` together with the stripped
value that the caller then uses: `some` exactly when `x` is a string with
non-whitespace content. -/
def strippedNonempty : Val → Option String
  | Val.vstr s => let s2 := pyStrip s; if s2 = "" then none else some s2
  | _ => none

/-- `(label or "").lower()` (classifier.py line 465): lowers a string,
maps any falsy value to `""`, and raises (`none`) on a truthy
non-string. -/
def pyLowerOrEmpty : Val → Option String
  | Val.vstr s => some (String.mk (lowerChars s.data))
  | Val.vnone => some ""
  | Val.vbool b => if b then none else some ""
  | Val.vnum q => if q = 0 then some "" else none
  | Val.vlist l => if l.isEmpty then some "" else none
  | Val.vdict kvs => if kvs.isEmpty then some "" else none

/-- `get_effective_label(report)` (classifier.py lines 476-491). -/
def get_effective_label (report : Val) : String :=
  if report.isDict then
    match strippedNonempty (vgetD report "label_llm" Val.vnone) with
    | some s => s
    | none =>
      match strippedNonempty (vgetD report "label" Val.vnone) with
      | some s => s
      | none => "unknown"
  else "unknown"

/-- `get_effective_credibility(report)` (classifier.py lines 494-522). -/
def get_effective_credibility (report : Val) : ℚ :=
  if report.isDict then
    match pyFloat (vgetD report "credibility_llm" Val.vnone),
          pyFloat (vgetD report "credibility" Val.vnone) with
    | some l, some c => pyRound2 (7/10 * l + 3/10 * c)
    | some l, none => pyRound2 l
    | none, some c => pyRound2 c
    | none, none => 0
  else 0

/-- `_infer_risk_level_from_classic(label, credibility)` (classifier.py
lines 456-473).  The credibility argument is always a float at the call
site, so the `float(credibility)` guard is the identity; `(label or
"").lower()` raises (`none`) on a truthy non-string label. -/
def infer_risk_level_from_classic (label : Val) (credibility : ℚ) : Option String :=
  match pyLowerOrEmpty label with
  | none => none
  | some lab =>
    some (if lab = "scam_like" ∨ credibility < 40 then "high"
      else if lab = "risky_promo" ∨ lab = "promotion" ∨ credibility < 70 then "medium"
      else "low")

/-- The risk-signal deduplication loop of `get_effective_risk_profile`
(classifier.py lines 583-592): keep only string entries whose stripped
value is non-empty and not seen yet, in first-seen order. -/
def dedupSignalsAux (seen : List String) : List Val → List String
  | [] => []
  | v :: vs =>
    match v with
    | Val.vstr s =>
      let key := pyStrip s
      if key = "" ∨ key ∈ seen then dedupSignalsAux seen vs
      else key :: dedupSignalsAux (key :: seen) vs
    | _ => dedupSignalsAux seen vs

def dedupSignals (l : List Val) : List String :=
  dedupSignalsAux [] l

/-- The reasons-extension loop of `get_effective_risk_profile`
(classifier.py lines 594-599): append each deduplicated signal that is not
already the `str` image of some reason. -/
def extendReasonsAux (acc : List Val) (existing : List String) :
    List String → List Val
  | [] => acc
  | s :: ss =>
    if s ∈ existing then extendReasonsAux acc existing ss
    else extendReasonsAux (acc ++ [Val.vstr s]) (s :: existing) ss

def extendReasons (reasons : List Val) (signals : List String) : List Val :=
  extendReasonsAux reasons (reasons.map pyStr) signals

/-- The dictionary returned by `get_effective_risk_profile`
(classifier.py lines 601-613). -/
structure RiskProfile where
  label_classic : Val
  label_llm : Val
  label_final : String
  credibility_classic : ℚ
  credibility_llm : Option ℚ
  credibility_final : ℚ
  risk_level_llm : Option String
  risk_level_inferred : String
  risk_level_final : String
  risk_signals : List String
  reasons : List Val

/-- The neutral profile returned for non-dict input
(classifier.py lines 529-542). -/
def neutral_profile : RiskProfile :=
  { label_classic := Val.vstr "unknown"
    label_llm := Val.vnone
    label_final := "unknown"
    credibility_classic := 0
    credibility_llm := none
    credibility_final := 0
    risk_level_llm := none
    risk_level_inferred := "low"
    risk_level_final := "low"
    risk_signals := []
    reasons := [] }

/-- `x or y` for a list-valued `trust.get(...)` followed by the
`isinstance(..., list)` guard: anything that is not a list collapses
to `[]`. -/
def listOrEmpty : Val → List Val
  | Val.vlist l => l
  | _ => []

/-- `report.get("trust") or {}` followed by the `isinstance(..., dict)`
guard: anything that is not a dict collapses to `{}`. -/
def dictOrEmpty : Val → Val
  | Val.vdict kvs => Val.vdict kvs
  | _ => Val.vdict []

/-- `report.get("trust") or {}` with the dict guard
(classifier.py lines 562-564). -/
def trustOf (r : Val) : Val := dictOrEmpty (vgetD r "trust" Val.vnone)

/-- `trust.get("risk_signals") or []` with the list guard
(classifier.py lines 579-581). -/
def rawSignals (r : Val) : List Val :=
  listOrEmpty (vgetD (trustOf r) "risk_signals" Val.vnone)

/-- `trust.get("reasons") or []` with the list guard
(classifier.py lines 575-577). -/
def rawReasons (r : Val) : List Val :=
  listOrEmpty (vgetD (trustOf r) "reasons" Val.vnone)

/-- The normalized `risk_level_llm` (classifier.py lines 566-570):
stripped and lower-cased when a string with non-blank content, else
`None`. -/
def riskLevelLLMOf (r : Val) : Option String :=
  (strippedNonempty (vgetD (trustOf r) "risk_level_llm" Val.vnone)).map
    (fun s => String.mk (lowerChars s.data))

/-- `get_effective_risk_profile(report)` (classifier.py lines 525-613).
The only statement in the body that can raise is
`_infer_risk_level_from_classic`'s `(label or "").lower()` when the
report's `label` value is a truthy non-string; that exception is modelled
by `none`. -/
def get_effective_risk_profile (report : Val) : Option RiskProfile :=
  if report.isDict then
    match infer_risk_level_from_classic (vgetD report "label" (Val.vstr "unknown"))
        ((pyFloat (vgetD report "credibility" Val.vnone)).getD 0) with
    | none => none
    | some riskLevelInferred =>
      some
        { label_classic := vgetD report "label" (Val.vstr "unknown")
          label_llm := vgetD report "label_llm" Val.vnone
          label_final := get_effective_label report
          credibility_classic :=
            pyRound2 ((pyFloat (vgetD report "credibility" Val.vnone)).getD 0)
          credibility_llm := (pyFloat (vgetD report "credibility_llm" Val.vnone)).map pyRound2
          credibility_final := get_effective_credibility report
          risk_level_llm := riskLevelLLMOf report
          risk_level_inferred := riskLevelInferred
          risk_level_final := (riskLevelLLMOf report).getD riskLevelInferred
          risk_signals := dedupSignals (rawSignals report)
          reasons := extendReasons (rawReasons report) (dedupSignals (rawSignals report)) }
  else some neutral_profile

/-- Re-merge with no new opinion: a report carrying the already-merged
final label and credibility and the merged trust lists, and no opinion
fields (`merge(merged, None)` in the specification's notation). -/
def remerge_report (p : RiskProfile) : Val :=
  Val.vdict
    [("label", Val.vstr p.label_final),
     ("credibility", Val.vnum p.credibility_final),
     ("trust", Val.vdict
        [("reasons", Val.vlist p.reasons),
         ("risk_signals", Val.vlist (p.risk_signals.map Val.vstr))])]

/-- `RiskLabel` (schemas.py lines 10-16). -/
inductive RiskLabel where
  | SAFE
  | LOW_RISK
  | MODERATE_RISK
  | HIGH_RISK
  | SCAM_SUSPECTED
  | UNKNOWN
deriving DecidableEq, Repr

/-- The catalog-lookup result consumed by the pipeline: the
`trust_baseline` and `health_advisory` fields of a matched brand entry
(`None` catalog match is `Option CatalogEntry` at the use sites). -/
structure CatalogEntry where
  trust_baseline : Option String
  health_advisory : List String
deriving DecidableEq, Repr

/-- The advisory-merging loop of the pipeline (pipeline.py lines 226-227):
append each heuristic advisory not already present. -/
def appendNew (base new : List String) : List String :=
  new.foldl (fun acc h => if h ∈ acc then acc else acc ++ [h]) base

/-- Step 9 of `run_analysis_pipeline` (pipeline.py lines 302-312): final
risk label and risk score from the legitimacy score and the health
advisories alone. -/
def pipeline_final_label (legitimacy_score : ℚ) (health_advisories : List String) :
    RiskLabel × ℚ :=
  if 80 ≤ legitimacy_score then
    (if health_advisories.isEmpty then RiskLabel.SAFE else RiskLabel.LOW_RISK, 1/10)
  else if 50 ≤ legitimacy_score then (RiskLabel.MODERATE_RISK, 1/2)
  else (RiskLabel.HIGH_RISK, 9/10)

/-- The pipeline's combined text for a text-only request (pipeline.py lines
171-178): with no image, OCR text and vision fields are empty, so
`" ".join(filter(None, ...)).strip()` is the stripped ad text. -/
def slice_combined (adText : Option (List Char)) : List Char :=
  stripChars (adText.getD [])

/-- The legacy label computed in step 5b (pipeline.py line 199). -/
def slice_label (adText : Option (List Char)) : String :=
  (predict_scam_label (some (slice_combined adText))).1

/-- Health advisories of steps 6.5 (pipeline.py lines 220-227): catalog
advisories first, then heuristic advisories not already present. -/
def slice_advisories (adText : Option (List Char)) (knownBrand : Option CatalogEntry) :
    List String :=
  appendNew ((knownBrand.map CatalogEntry.health_advisory).getD [])
    (locate_health_advisories (some (slice_combined adText)))

/-- The urgency count of step 7 (pipeline.py line 289): the number of scam
keyword spans located in the lower-cased combined text. -/
def slice_urgency (adText : Option (List Char)) : Nat :=
  (locate_spans (some (lowerChars (slice_combined adText))) SCAM_KEYWORDS
    "risky_phrase" none).length

/-- The legitimacy score of step 7 (pipeline.py lines 284-290), for a
text-only request with the given external catalog match and domain trust. -/
def slice_legitimacy (adText : Option (List Char)) (knownBrand : Option CatalogEntry)
    (domainTrust : String) (sentiment : ℚ) : ℚ :=
  compute_legitimacy_score (slice_label adText)
    (knownBrand.bind CatalogEntry.trust_baseline) domainTrust sentiment
    (slice_urgency adText : ℤ)

/-- Steps 5-9 of `run_analysis_pipeline` for a text-only request: the rule
triggers of step 5 and the final (label, risk score) of step 9.  Image
handling, catalog lookup and domain reputation are external collaborators;
the catalog match and the computed domain trust enter as parameters. -/
def pipeline_slice (adText : Option (List Char)) (knownBrand : Option CatalogEntry)
    (domainTrust : String) (sentiment : ℚ) :
    (RiskLabel × ℚ) × List RuleTrigger :=
  (pipeline_final_label (slice_legitimacy adText knownBrand domainTrust sentiment)
      (slice_advisories adText knownBrand),
   evaluate_rules (some (slice_combined adText)))

/-! ### Helper lemmas -/

theorem dropWhile_idem (p : Char → Bool) (l : List Char) :
    (l.dropWhile p).dropWhile p = l.dropWhile p := by
  induction l with
  | nil => rfl
  | cons a l ih =>
    by_cases h : p a <;> simp [List.dropWhile_cons, h, ih]

theorem head_dropWhile_not (p : Char → Bool) (l : List Char) (a : Char)
    (h : (l.dropWhile p).head? = some a) : p a = false := by
  induction l with
  | nil => simp at h
  | cons b l ih =>
    by_cases hb : p b
    · rw [List.dropWhile_cons_of_pos hb] at h
      exact ih h
    · rw [List.dropWhile_cons_of_neg hb] at h
      simp at h
      simpa [← h] using hb

theorem dropWhile_eq_self_of_head (p : Char → Bool) (l : List Char)
    (h : ∀ a, l.head? = some a → p a = false) : l.dropWhile p = l := by
  cases l with
  | nil => rfl
  | cons a l =>
    have := h a rfl
    simp [List.dropWhile_cons, this]

/-- The stripped list is a prefix of the front-trimmed list. -/
theorem stripChars_prefix (s : List Char) :
    stripChars s <+: s.dropWhile isPySpace := by
  unfold stripChars
  rw [← List.reverse_suffix]
  simp only [List.reverse_reverse]
  exact List.dropWhile_suffix _

theorem stripChars_idem (s : List Char) :
    stripChars (stripChars s) = stripChars s := by
  have hfront : (stripChars s).dropWhile isPySpace = stripChars s := by
    apply dropWhile_eq_self_of_head
    intro a ha
    have hpre := stripChars_prefix s
    have : (s.dropWhile isPySpace).head? = some a := by
      cases hd : stripChars s with
      | nil => rw [hd] at ha; simp at ha
      | cons b t =>
        rw [hd] at ha
        simp at ha
        obtain ⟨u, hu⟩ := hpre
        rw [hd] at hu
        rw [← hu, ha]
        rfl
    exact head_dropWhile_not _ _ _ this
  show ((((stripChars s).dropWhile isPySpace).reverse.dropWhile isPySpace)).reverse = stripChars s
  rw [hfront]
  have hrev : (stripChars s).reverse = (s.dropWhile isPySpace).reverse.dropWhile isPySpace := by
    unfold stripChars
    rw [List.reverse_reverse]
  rw [hrev, dropWhile_idem, ← hrev, List.reverse_reverse]

theorem pyStrip_idem (s : String) : pyStrip (pyStrip s) = pyStrip s := by
  unfold pyStrip
  rw [show (String.mk (stripChars s.data)).data = stripChars s.data from rfl,
    stripChars_idem]

theorem pyRound_intCast (n : ℤ) : pyRound (n : ℚ) = n := by
  unfold pyRound
  norm_num [Int.floor_intCast]

theorem pyRound2_idem (q : ℚ) : pyRound2 (pyRound2 q) = pyRound2 q := by
  unfold pyRound2
  rw [div_mul_cancel₀ _ (by norm_num : (100 : ℚ) ≠ 0), pyRound_intCast]

theorem pyRound2_zero : pyRound2 0 = 0 := by
  have h := pyRound_intCast 0
  rw [Int.cast_zero] at h
  unfold pyRound2
  norm_num [h]

theorem pyStrip_empty_iff (s : String) : pyStrip s = "" ↔ stripChars s.data = [] := by
  unfold pyStrip
  constructor
  · intro h
    have := congrArg String.data h
    simpa using this
  · intro h
    rw [h]

/-- Every value returned by `get_effective_label` is a non-empty
`strip`-fixed string. -/
theorem get_effective_label_stripped (r : Val) :
    pyStrip (get_effective_label r) = get_effective_label r ∧
      get_effective_label r ≠ "" := by
  unfold get_effective_label
  by_cases hd : r.isDict
  · rw [if_pos hd]
    rcases h1 : strippedNonempty (vgetD r "label_llm" Val.vnone) with _ | s1
    · rcases h2 : strippedNonempty (vgetD r "label" Val.vnone) with _ | s2
      · exact ⟨by decide, by decide⟩
      · unfold strippedNonempty at h2
        rcases hv : vgetD r "label" Val.vnone with _ | _ | _ | s | _ | _ <;>
          rw [hv] at h2 <;> simp at h2
        rcases h2 with ⟨hne, hs2⟩
        subst hs2
        exact ⟨pyStrip_idem s, hne⟩
    · unfold strippedNonempty at h1
      rcases hv : vgetD r "label_llm" Val.vnone with _ | _ | _ | s | _ | _ <;>
        rw [hv] at h1 <;> simp at h1
      rcases h1 with ⟨hne, hs1⟩
      subst hs1
      exact ⟨pyStrip_idem s, hne⟩
  · rw [if_neg hd]
    exact ⟨by decide, by decide⟩

/-- `get_effective_credibility` always returns a fixed point of
two-decimal rounding. -/
theorem get_effective_credibility_round_fixed (r : Val) :
    pyRound2 (get_effective_credibility r) = get_effective_credibility r := by
  unfold get_effective_credibility
  by_cases hd : r.isDict
  · rw [if_pos hd]
    rcases pyFloat (vgetD r "credibility_llm" Val.vnone) with _ | l <;>
      rcases pyFloat (vgetD r "credibility" Val.vnone) with _ | c <;>
      simp [pyRound2_idem, pyRound2_zero]
  · rw [if_neg hd]
    exact pyRound2_zero

/-- The whitespace-trimmed value of a risk-signal entry, defined (`some`)
exactly for string entries with non-whitespace content — the entries the
specification says survive deduplication. -/
def trimVal : Val → Option String
  | Val.vstr s => let k := pyStrip s; if k = "" then none else some k
  | _ => none

theorem dedupSignalsAux_mem (l : List Val) :
    ∀ seen s, s ∈ dedupSignalsAux seen l →
      pyStrip s = s ∧ s ≠ "" ∧ s ∉ seen := by
  induction l with
  | nil => intro seen s h; simp [dedupSignalsAux] at h
  | cons v vs ih =>
    intro seen s h
    cases v with
    | vstr s0 =>
      simp only [dedupSignalsAux] at h
      by_cases hg : pyStrip s0 = "" ∨ pyStrip s0 ∈ seen
      · rw [if_pos hg] at h
        exact ih seen s h
      · rw [if_neg hg] at h
        push_neg at hg
        rcases List.mem_cons.mp h with rfl | h2
        · exact ⟨pyStrip_idem s0, hg.1, hg.2⟩
        · have := ih (pyStrip s0 :: seen) s h2
          exact ⟨this.1, this.2.1, fun hs => this.2.2 (List.mem_cons_of_mem _ hs)⟩
    | vnone => exact ih seen s h
    | vbool b => exact ih seen s h
    | vnum q => exact ih seen s h
    | vlist l2 => exact ih seen s h
    | vdict kvs => exact ih seen s h

theorem dedupSignalsAux_nodup (l : List Val) :
    ∀ seen, (dedupSignalsAux seen l).Nodup := by
  induction l with
  | nil => intro seen; simp [dedupSignalsAux]
  | cons v vs ih =>
    intro seen
    cases v with
    | vstr s0 =>
      simp only [dedupSignalsAux]
      by_cases hg : pyStrip s0 = "" ∨ pyStrip s0 ∈ seen
      · rw [if_pos hg]; exact ih seen
      · rw [if_neg hg]
        refine List.nodup_cons.mpr ⟨fun hmem => ?_, ih _⟩
        have := dedupSignalsAux_mem vs _ _ hmem
        exact this.2.2 (List.mem_cons_self _ _)
    | vnone => exact ih seen
    | vbool b => exact ih seen
    | vnum q => exact ih seen
    | vlist l2 => exact ih seen
    | vdict kvs => exact ih seen

theorem dedupSignalsAux_sublist (l : List Val) :
    ∀ seen, (dedupSignalsAux seen l).Sublist (l.filterMap trimVal) := by
  induction l with
  | nil => intro seen; simp [dedupSignalsAux]
  | cons v vs ih =>
    intro seen
    cases v with
    | vstr s0 =>
      simp only [dedupSignalsAux, List.filterMap_cons, trimVal]
      by_cases he : pyStrip s0 = ""
      · rw [if_pos (Or.inl he)]
        simp only [he, if_pos rfl]
        exact ih seen
      · simp only [he, if_neg he]
        by_cases hs : pyStrip s0 ∈ seen
        · rw [if_pos (Or.inr hs)]
          exact (ih seen).cons _
        · rw [if_neg (by tauto)]
          exact (ih _).cons₂ _
    | vnone => simpa [List.filterMap_cons, trimVal] using ih seen
    | vbool b => simpa [List.filterMap_cons, trimVal] using ih seen
    | vnum q => simpa [List.filterMap_cons, trimVal] using ih seen
    | vlist l2 => simpa [List.filterMap_cons, trimVal] using ih seen
    | vdict kvs => simpa [List.filterMap_cons, trimVal] using ih seen

/-- Re-deduplicating an already-deduplicated signal list is the
identity. -/
theorem dedupSignalsAux_fixed (out : List String) :
    ∀ seen, (∀ s ∈ out, pyStrip s = s ∧ s ≠ "" ∧ s ∉ seen) → out.Nodup →
      dedupSignalsAux seen (out.map Val.vstr) = out := by
  induction out with
  | nil => intro seen _ _; rfl
  | cons s out ih =>
    intro seen hinv hnd
    have hs := hinv s (List.mem_cons_self _ _)
    simp only [List.map_cons, dedupSignalsAux, hs.1]
    rw [if_neg (by tauto)]
    congr 1
    apply ih
    · intro x hx
      have := hinv x (List.mem_cons_of_mem _ hx)
      refine ⟨this.1, this.2.1, ?_⟩
      intro hxs
      rcases List.mem_cons.mp hxs with rfl | hxs2
      · exact (List.nodup_cons.mp hnd).1 hx
      · exact this.2.2 hxs2
    · exact (List.nodup_cons.mp hnd).2

theorem extendReasonsAux_acc (ss : List String) :
    ∀ acc existing, ∃ tail, extendReasonsAux acc existing ss = acc ++ tail := by
  induction ss with
  | nil => intro acc existing; exact ⟨[], by simp [extendReasonsAux]⟩
  | cons s ss ih =>
    intro acc existing
    simp only [extendReasonsAux]
    by_cases h : s ∈ existing
    · rw [if_pos h]; exact ih acc existing
    · rw [if_neg h]
      obtain ⟨tail, htail⟩ := ih (acc ++ [Val.vstr s]) (s :: existing)
      exact ⟨[Val.vstr s] ++ tail, by rw [htail, List.append_assoc]⟩

/-- With no duplicates among the signals, the extension loop appends
exactly the signals not already textually present. -/
theorem extendReasonsAux_eq (ss : List String) :
    ∀ acc existing, ss.Nodup →
      extendReasonsAux acc existing ss =
        acc ++ (ss.filter (fun s => decide (s ∉ existing))).map Val.vstr := by
  induction ss with
  | nil => intro acc existing _; simp [extendReasonsAux]
  | cons s ss ih =>
    intro acc existing hnd
    have hnd2 := List.nodup_cons.mp hnd
    simp only [extendReasonsAux]
    by_cases h : s ∈ existing
    · rw [if_pos h, ih acc existing hnd2.2]
      have hfe : (s :: ss).filter (fun x => decide (x ∉ existing)) =
          ss.filter (fun x => decide (x ∉ existing)) := by
        simp [List.filter_cons, h]
      rw [hfe]
    · rw [if_neg h]
      rw [ih (acc ++ [Val.vstr s]) (s :: existing) hnd2.2]
      have hfil : ss.filter (fun x => decide (x ∉ s :: existing)) =
          ss.filter (fun x => decide (x ∉ existing)) := by
        apply List.filter_congr
        intro x hx
        have hxs : x ≠ s := fun hh => hnd2.1 (hh ▸ hx)
        simp [List.mem_cons, hxs, h]
      rw [hfil]
      simp [h, List.append_assoc]

/-- Every signal ends up among the `str` images of the extended reasons
list, provided every entry of `existing` is already such an image. -/
theorem extendReasonsAux_covers (ss : List String) :
    ∀ acc existing, (∀ e ∈ existing, e ∈ acc.map pyStr) →
      ∀ s ∈ ss, s ∈ (extendReasonsAux acc existing ss).map pyStr := by
  induction ss with
  | nil => intro acc existing _ s h; simp at h
  | cons s0 ss ih =>
    intro acc existing hinv s hs
    simp only [extendReasonsAux]
    by_cases h : s0 ∈ existing
    · rw [if_pos h]
      rcases List.mem_cons.mp hs with rfl | hs2
      · obtain ⟨tail, htail⟩ := extendReasonsAux_acc ss acc existing
        rw [htail, List.map_append]
        exact List.mem_append_left _ (hinv s h)
      · exact ih acc existing hinv s hs2
    · rw [if_neg h]
      have hinv2 : ∀ e ∈ s0 :: existing, e ∈ (acc ++ [Val.vstr s0]).map pyStr := by
        intro e he
        rcases List.mem_cons.mp he with rfl | he2
        · simp [pyStr]
        · rw [List.map_append]
          exact List.mem_append_left _ (hinv e he2)
      rcases List.mem_cons.mp hs with rfl | hs2
      · obtain ⟨tail, htail⟩ := extendReasonsAux_acc ss (acc ++ [Val.vstr s]) (s :: existing)
        rw [htail, List.map_append]
        exact List.mem_append_left _ (hinv2 s (List.mem_cons_self _ _))
      · exact ih _ _ hinv2 s hs2

/-- If every signal is already textually present, the extension loop is
the identity on the reasons list. -/
theorem extendReasonsAux_id (ss : List String) :
    ∀ acc existing, (∀ s ∈ ss, s ∈ existing) →
      extendReasonsAux acc existing ss = acc := by
  induction ss with
  | nil => intro acc existing _; rfl
  | cons s ss ih =>
    intro acc existing hcov
    simp only [extendReasonsAux]
    rw [if_pos (hcov s (List.mem_cons_self _ _))]
    exact ih acc existing (fun x hx => hcov x (List.mem_cons_of_mem _ hx))

/-- Inversion of `get_effective_risk_profile` on dictionary input: the
fields of a successfully returned profile. -/
theorem profile_dict_inv (r : Val) (p : RiskProfile) (hd : r.isDict = true)
    (h : get_effective_risk_profile r = some p) :
    p.label_final = get_effective_label r ∧
    p.credibility_final = get_effective_credibility r ∧
    p.risk_signals = dedupSignals (rawSignals r) ∧
    p.reasons = extendReasons (rawReasons r) (dedupSignals (rawSignals r)) ∧
    p.risk_level_llm = riskLevelLLMOf r ∧
    p.risk_level_final = p.risk_level_llm.getD p.risk_level_inferred ∧
    infer_risk_level_from_classic (vgetD r "label" (Val.vstr "unknown"))
      ((pyFloat (vgetD r "credibility" Val.vnone)).getD 0) = some p.risk_level_inferred := by
  unfold get_effective_risk_profile at h
  rw [if_pos hd] at h
  rcases hinf : infer_risk_level_from_classic (vgetD r "label" (Val.vstr "unknown"))
      ((pyFloat (vgetD r "credibility" Val.vnone)).getD 0) with _ | rli
  · rw [hinf] at h
    simp at h
  · rw [hinf] at h
    simp only [Option.some.injEq] at h
    rw [← h]
    exact ⟨rfl, rfl, rfl, rfl, rfl, rfl, rfl⟩

/-! ### Claim theorems -/

/-- Claim C4: for every input combination, `compute_model_confidence`
returns a value in `[0.15, 0.95]`, and in the empty-text, no-image,
no-catalog, no-similarity case it returns exactly the `0.15` floor (and,
being a total function, raises no exception). -/
theorem claim_C4_thm (vision_success : Bool) (ocr_quality_score : ℚ)
    (catalog_match : Bool) (image_text_sim : Option ℚ) :
    (15/100 ≤ compute_model_confidence vision_success ocr_quality_score
        catalog_match image_text_sim ∧
      compute_model_confidence vision_success ocr_quality_score
        catalog_match image_text_sim ≤ 95/100) ∧
    compute_model_confidence false 0 false none = 15/100 := by
  refine ⟨⟨?_, ?_⟩, by norm_num [compute_model_confidence, min_def, max_def]⟩
  · simp only [compute_model_confidence]
    exact le_min (by norm_num) (le_max_left _ _)
  · simp only [compute_model_confidence]
    exact min_le_left _ _

/-- Claim C8: `evaluate_rules` is a pure total function of the lower-cased
text (total over `None`/empty input by the `(text or "")` guard) emitting
exactly the four independent triggers H1, F1, B1, C1, each present iff its
substring condition holds on the lower-cased text, independent of
evaluation order. -/
theorem claim_C8_thm (text : Option (List Char)) :
    evaluate_rules text =
      (if (containsSub (lowerChars (text.getD [])) "cure".data ||
            containsSub (lowerChars (text.getD [])) "remedy".data) &&
          (containsSub (lowerChars (text.getD [])) "guaranteed".data ||
            containsSub (lowerChars (text.getD [])) "100%".data)
        then [⟨"H1", "Guaranteed cure/remedy claim detected", "high"⟩] else []) ++
      (if containsSub (lowerChars (text.getD [])) "double your money".data ||
          containsSub (lowerChars (text.getD [])) "guaranteed returns".data
        then [⟨"F1", "Unrealistic financial promise", "high"⟩] else []) ++
      (if containsSub (lowerChars (text.getD [])) "before".data &&
          containsSub (lowerChars (text.getD [])) "after".data
        then [⟨"B1", "Before/After comparison usage", "medium"⟩] else []) ++
      (if FOMO_PHRASES.any (fun p => containsSub (lowerChars (text.getD [])) p)
        then [⟨"C1", "High urgency / FOMO tactics", "medium"⟩] else []) ∧
    ((⟨"H1", "Guaranteed cure/remedy claim detected", "high"⟩ : RuleTrigger) ∈
        evaluate_rules text ↔
      ((containsSub (lowerChars (text.getD [])) "cure".data ||
          containsSub (lowerChars (text.getD [])) "remedy".data) &&
        (containsSub (lowerChars (text.getD [])) "guaranteed".data ||
          containsSub (lowerChars (text.getD [])) "100%".data)) = true) ∧
    ((⟨"F1", "Unrealistic financial promise", "high"⟩ : RuleTrigger) ∈
        evaluate_rules text ↔
      (containsSub (lowerChars (text.getD [])) "double your money".data ||
        containsSub (lowerChars (text.getD [])) "guaranteed returns".data) = true) ∧
    ((⟨"B1", "Before/After comparison usage", "medium"⟩ : RuleTrigger) ∈
        evaluate_rules text ↔
      (containsSub (lowerChars (text.getD [])) "before".data &&
        containsSub (lowerChars (text.getD [])) "after".data) = true) ∧
    ((⟨"C1", "High urgency / FOMO tactics", "medium"⟩ : RuleTrigger) ∈
        evaluate_rules text ↔
      (FOMO_PHRASES.any (fun p => containsSub (lowerChars (text.getD [])) p)) = true) := by
  have he : evaluate_rules text =
      (if (containsSub (lowerChars (text.getD [])) "cure".data ||
            containsSub (lowerChars (text.getD [])) "remedy".data) &&
          (containsSub (lowerChars (text.getD [])) "guaranteed".data ||
            containsSub (lowerChars (text.getD [])) "100%".data)
        then [⟨"H1", "Guaranteed cure/remedy claim detected", "high"⟩] else []) ++
      (if containsSub (lowerChars (text.getD [])) "double your money".data ||
          containsSub (lowerChars (text.getD [])) "guaranteed returns".data
        then [⟨"F1", "Unrealistic financial promise", "high"⟩] else []) ++
      (if containsSub (lowerChars (text.getD [])) "before".data &&
          containsSub (lowerChars (text.getD [])) "after".data
        then [⟨"B1", "Before/After comparison usage", "medium"⟩] else []) ++
      (if FOMO_PHRASES.any (fun p => containsSub (lowerChars (text.getD [])) p)
        then [⟨"C1", "High urgency / FOMO tactics", "medium"⟩] else []) := by
    simp only [evaluate_rules]
    split_ifs <;> rfl
  refine ⟨he, ?_, ?_, ?_, ?_⟩ <;> rw [he] <;> split_ifs <;> simp_all

/-- Claim C9 counterexample: `extract_evidence_spans(None)` raises an
`AttributeError` (the unguarded `text.lower()`), modelled by `none`; it
does not return the empty span and subcategory lists the claim asserts. -/
theorem claim_C9_counterexample :
    extract_evidence_spans none = none ∧
    extract_evidence_spans none ≠ some ([], []) := ⟨rfl, by decide⟩

/-- Claim C9 amended: `_locate_spans` yields `[]` for both `None` and the
empty string without error, and `extract_evidence_spans` yields empty span
and subcategory lists for the empty string; only the `None` input to
`extract_evidence_spans` raises. -/
theorem claim_C9_amended (keywords : List (List Char)) (kind : String)
    (cat : Option String) :
    locate_spans none keywords kind cat = [] ∧
    locate_spans (some []) keywords kind cat = [] ∧
    extract_evidence_spans (some []) = some ([], []) := ⟨rfl, rfl, rfl⟩

/-- Claim C10: for any non-dict report value, `get_effective_risk_profile`
raises no exception and returns the neutral worst-case profile with the
exact field values the claim lists. -/
theorem claim_C10_thm (v : Val) (hd : v.isDict = false) :
    get_effective_risk_profile v = some neutral_profile ∧
    neutral_profile.label_classic = Val.vstr "unknown" ∧
    neutral_profile.label_llm = Val.vnone ∧
    neutral_profile.label_final = "unknown" ∧
    neutral_profile.credibility_classic = 0 ∧
    neutral_profile.credibility_llm = none ∧
    neutral_profile.credibility_final = 0 ∧
    neutral_profile.risk_level_llm = none ∧
    neutral_profile.risk_level_inferred = "low" ∧
    neutral_profile.risk_level_final = "low" ∧
    neutral_profile.risk_signals = [] ∧
    neutral_profile.reasons = [] := by
  refine ⟨?_, rfl, rfl, rfl, rfl, rfl, rfl, rfl, rfl, rfl, rfl, rfl⟩
  unfold get_effective_risk_profile
  rw [if_neg (by simp [hd])]

/-- Witness for claim C10 at the concrete non-dict report `None`. -/
theorem claim_C10_witness :
    get_effective_risk_profile Val.vnone = some neutral_profile ∧
    neutral_profile.label_classic = Val.vstr "unknown" ∧
    neutral_profile.label_llm = Val.vnone ∧
    neutral_profile.label_final = "unknown" ∧
    neutral_profile.credibility_classic = 0 ∧
    neutral_profile.credibility_llm = none ∧
    neutral_profile.credibility_final = 0 ∧
    neutral_profile.risk_level_llm = none ∧
    neutral_profile.risk_level_inferred = "low" ∧
    neutral_profile.risk_level_final = "low" ∧
    neutral_profile.risk_signals = [] ∧
    neutral_profile.reasons = [] :=
  claim_C10_thm Val.vnone rfl

/-- Offsets invariant of the span locator: every span carries non-negative
offsets with `start ≤ end`. -/
theorem locate_spans_offsets (tl : Option (List Char)) (kws : List (List Char))
    (kind : String) (cat : Option String) :
    ∀ sp ∈ locate_spans tl kws kind cat, 0 ≤ sp.start ∧ sp.start ≤ sp.stop := by
  intro sp hsp
  cases tl with
  | none => simp [locate_spans] at hsp
  | some t =>
    simp only [locate_spans] at hsp
    by_cases hE : t.isEmpty
    · rw [if_pos hE] at hsp
      simp at hsp
    · rw [if_neg hE] at hsp
      simp only [List.mem_flatten, List.mem_map] at hsp
      obtain ⟨l, ⟨kw, hkw, hl⟩, hspl⟩ := hsp
      rw [← hl] at hspl
      simp only [List.mem_map] at hspl
      obtain ⟨idx, _, hsp⟩ := hspl
      rw [← hsp]
      constructor
      · show (0 : Int) ≤ Int.ofNat idx
        exact Int.ofNat_le.mpr (Nat.zero_le idx)
      · show Int.ofNat idx ≤ Int.ofNat (idx + kw.length)
        exact Int.ofNat_le.mpr (Nat.le_add_right idx kw.length)

/-- The single evidence span located in the text `"cure"`. -/
def C6span : EvidenceSpan :=
  { kind := "advisory_phrase", text := "cure".data, start := 0, stop := 4,
    reason := "Contains phrase " ++ squote ++ "cure" ++ squote,
    category := "health-claim" }

/-- Claim C6 counterexample: in the text `"cure cure"` the keyword `cure`
occurs twice and `extract_evidence_spans` emits one span per occurrence —
two spans with the same (lower-cased text, kind) pair, so the claimed
deduplication (at most one span per pair) does not happen. -/
theorem claim_C6_counterexample :
    ((extract_evidence_spans (some "cure cure".data)).map
      (fun pr => (pr.1.filter
        (fun sp => sp.text == "cure".data && sp.kind == "advisory_phrase")).length))
      = some 2 ∧ ¬ (2 : Nat) ≤ 1 := ⟨by rfl, by norm_num⟩

/-- Claim C6 amended: spans are emitted once per keyword occurrence and
are not deduplicated across occurrences, and every emitted span satisfies
the offsets invariant `0 ≤ start ≤ end`. -/
theorem claim_C6_amended (text : Option (List Char)) (out : List EvidenceSpan)
    (subs : List String) (h : extract_evidence_spans text = some (out, subs)) :
    ∀ sp ∈ out, 0 ≤ sp.start ∧ sp.start ≤ sp.stop := by
  intro sp hsp
  cases text with
  | none => exact absurd h (by simp [extract_evidence_spans])
  | some txt =>
    simp only [extract_evidence_spans, Option.some.injEq, Prod.mk.injEq] at h
    obtain ⟨hout, _⟩ := h
    rw [← hout] at hsp
    rcases List.mem_append.mp hsp with h1 | h2
    · exact locate_spans_offsets _ _ _ _ sp h1
    · exact locate_spans_offsets _ _ _ _ sp h2

/-- Witness for claim C6 at the concrete text `"cure"`. -/
theorem claim_C6_witness : 0 ≤ C6span.start ∧ C6span.start ≤ C6span.stop :=
  claim_C6_amended (some "cure".data) [C6span] ["health-claim"] (by rfl) C6span
    (by simp)

/-- The legitimacy formula exactly as claim C2 describes it: base 50;
catalog trust high/medium/low sets the score to 90/75/30; only when
catalog trust is absent or medium does the scam label adjust it
(scam_like: cap at 30 then minus 20; risky_promo: cap at 60 then minus 10;
promotion: plus 5); a suspicious domain subtracts a penalty of 0 when
catalog trust is high, 10 when medium, 40 otherwise, a trusted domain adds
10; urgency count over 2 subtracts 10 and over 5 a further 15,
cumulatively; the result is clamped to [0, 100]. -/
def legitimacy_score_spec (scam_label : String) (catalog_trust : Option String)
    (domain_trust : String) (urgency_count : ℤ) : ℚ :=
  let base : ℚ :=
    if catalog_trust = some "high" then 90
    else if catalog_trust = some "medium" then 75
    else if catalog_trust = some "low" then 30
    else 50
  let adjusted :=
    if catalog_trust = none ∨ catalog_trust = some "medium" then
      if scam_label = "scam_like" then min base 30 - 20
      else if scam_label = "risky_promo" then min base 60 - 10
      else if scam_label = "promotion" then base + 5
      else base
    else base
  let withDomain :=
    if domain_trust = "suspicious" then
      adjusted - (if catalog_trust = some "high" then 0
        else if catalog_trust = some "medium" then 10 else 40)
    else if domain_trust = "trusted" then adjusted + 10
    else adjusted
  let withUrgency :=
    (withDomain - (if 2 < urgency_count then 10 else 0)) -
      (if 5 < urgency_count then 15 else 0)
  max 0 (min 100 withUrgency)

theorem compute_legitimacy_score_bounds (scam_label : String)
    (catalog_trust : Option String) (domain_trust : String)
    (sentiment_score : ℚ) (urgency_count : ℤ) :
    0 ≤ compute_legitimacy_score scam_label catalog_trust domain_trust
        sentiment_score urgency_count ∧
    compute_legitimacy_score scam_label catalog_trust domain_trust
        sentiment_score urgency_count ≤ 100 := by
  simp only [compute_legitimacy_score]
  exact ⟨le_max_left _ _, max_le (by norm_num) (min_le_left _ _)⟩

set_option maxHeartbeats 2000000 in
/-- Claim C2: over the claim's input domain, `compute_legitimacy_score`
computes exactly the described formula and always lands in `[0, 100]`. -/
theorem claim_C2_thm (scam_label : String) (catalog_trust : Option String)
    (domain_trust : String) (sentiment_score : ℚ) (urgency_count : ℤ)
    (hlab : scam_label = "scam_like" ∨ scam_label = "risky_promo" ∨
      scam_label = "promotion" ∨ scam_label = "generic")
    (hct : catalog_trust = none ∨ catalog_trust = some "high" ∨
      catalog_trust = some "medium" ∨ catalog_trust = some "low")
    (hdt : domain_trust = "trusted" ∨ domain_trust = "neutral" ∨
      domain_trust = "suspicious") :
    compute_legitimacy_score scam_label catalog_trust domain_trust
        sentiment_score urgency_count =
      legitimacy_score_spec scam_label catalog_trust domain_trust urgency_count ∧
    0 ≤ compute_legitimacy_score scam_label catalog_trust domain_trust
        sentiment_score urgency_count ∧
    compute_legitimacy_score scam_label catalog_trust domain_trust
        sentiment_score urgency_count ≤ 100 := by
  refine ⟨?_, compute_legitimacy_score_bounds scam_label catalog_trust domain_trust
      sentiment_score urgency_count |>.1,
    compute_legitimacy_score_bounds scam_label catalog_trust domain_trust
      sentiment_score urgency_count |>.2⟩
  rcases hct with rfl | rfl | rfl | rfl <;>
    rcases hlab with rfl | rfl | rfl | rfl <;>
      rcases hdt with rfl | rfl | rfl <;>
        by_cases h2 : 2 < urgency_count <;>
          by_cases h5 : 5 < urgency_count <;>
            simp [compute_legitimacy_score, legitimacy_score_spec, h2, h5]

/-- Witness for claim C2 at a concrete input in the claim's domain. -/
theorem claim_C2_witness :
    compute_legitimacy_score "scam_like" (some "medium") "suspicious" 0 3 =
      legitimacy_score_spec "scam_like" (some "medium") "suspicious" 3 ∧
    0 ≤ compute_legitimacy_score "scam_like" (some "medium") "suspicious" 0 3 ∧
    compute_legitimacy_score "scam_like" (some "medium") "suspicious" 0 3 ≤ 100 :=
  claim_C2_thm "scam_like" (some "medium") "suspicious" 0 3 (Or.inl rfl)
    (Or.inr (Or.inr (Or.inl rfl))) (Or.inr (Or.inr rfl))

/-- Claim C1 amended: rule-engine triggers never alter the pipeline's
final verdict.  The final (label, risk score) of step 9 is a function of
the legitimacy score and the emptiness of the health-advisory list alone:
two text-only requests with equal legitimacy scores and equally empty
advisories get identical final labels and risk scores, whatever rule
triggers fire for their texts. -/
theorem claim_C1_amended (a1 a2 : Option (List Char))
    (kb1 kb2 : Option CatalogEntry) (d1 d2 : String) (s1 s2 : ℚ)
    (hleg : slice_legitimacy a1 kb1 d1 s1 = slice_legitimacy a2 kb2 d2 s2)
    (hadv : (slice_advisories a1 kb1).isEmpty = (slice_advisories a2 kb2).isEmpty) :
    (pipeline_slice a1 kb1 d1 s1).1 = (pipeline_slice a2 kb2 d2 s2).1 := by
  simp only [pipeline_slice, pipeline_final_label, hleg, hadv]

/-- Witness for claim C1: the text `"guaranteed cure"` fires the
high-severity H1 rule while `"hello"` fires nothing, yet both produce the
same final verdict. -/
theorem claim_C1_witness :
    (pipeline_slice (some "guaranteed cure".data) none "neutral" 0).1 =
      (pipeline_slice (some "hello".data) none "neutral" 0).1 :=
  claim_C1_amended (some "guaranteed cure".data) (some "hello".data) none none
    "neutral" "neutral" 0 0 (by rfl) (by rfl)

/-- Claim C1 counterexample: the text `"guaranteed cure"` fires the
high-severity H1 trigger, yet the pipeline's final label is MODERATE_RISK
with risk score 0.5, not the claimed HIGH_RISK with risk score at least
0.9; and the text `"act now"` with a high-trust catalog match fires the
medium-severity C1 trigger, yet the final label stays SAFE with risk score
0.1 instead of being escalated to MODERATE_RISK with risk score at least
0.6. -/
theorem claim_C1_counterexample :
    ((pipeline_slice (some "guaranteed cure".data) none "neutral" 0).2.any
      (fun tr => tr.severity == "high")) = true ∧
    (pipeline_slice (some "guaranteed cure".data) none "neutral" 0).1 =
      (RiskLabel.MODERATE_RISK, 1/2) ∧
    RiskLabel.MODERATE_RISK ≠ RiskLabel.HIGH_RISK ∧
    ¬ ((9 : ℚ)/10 ≤ 1/2) ∧
    ((pipeline_slice (some "act now".data) (some ⟨some "high", []⟩) "neutral" 0).2.any
      (fun tr => tr.severity == "medium")) = true ∧
    (pipeline_slice (some "act now".data) (some ⟨some "high", []⟩) "neutral" 0).1 =
      (RiskLabel.SAFE, 1/10) ∧
    ¬ ((6 : ℚ)/10 ≤ 1/10) :=
  ⟨by rfl, by rfl, by decide, by norm_num, by rfl, by rfl, by norm_num⟩

/-- Claim C7: the merged profile's risk signals are the whitespace-trimmed
string entries deduplicated by trimmed value in first-seen order (no
duplicates, every entry trimmed and non-empty, an order-preserving
sublist of the trimmed entries, length at most the number of distinct
trimmed values), and the reasons list is the classic reasons extended, in
order, with exactly the deduplicated signals not already textually
present, so every signal appears among the reasons. -/
theorem claim_C7_thm (r : Val) (p : RiskProfile)
    (h : get_effective_risk_profile r = some p) :
    p.risk_signals.Nodup ∧
    (∀ s ∈ p.risk_signals, pyStrip s = s ∧ s ≠ "") ∧
    p.risk_signals.Sublist ((rawSignals r).filterMap trimVal) ∧
    p.risk_signals.length ≤ ((rawSignals r).filterMap trimVal).dedup.length ∧
    p.reasons = rawReasons r ++
      (p.risk_signals.filter
        (fun s => decide (s ∉ (rawReasons r).map pyStr))).map Val.vstr ∧
    (∀ s ∈ p.risk_signals, s ∈ p.reasons.map pyStr) := by
  by_cases hd : r.isDict
  · obtain ⟨_, _, hsig, hreas, _, _, _⟩ := profile_dict_inv r p hd h
    have hnd : p.risk_signals.Nodup := by
      rw [hsig]; exact dedupSignalsAux_nodup _ []
    have hsub : p.risk_signals.Sublist ((rawSignals r).filterMap trimVal) := by
      rw [hsig]; exact dedupSignalsAux_sublist _ []
    refine ⟨hnd, ?_, hsub, ?_, ?_, ?_⟩
    · intro s hs
      rw [hsig] at hs
      have := dedupSignalsAux_mem _ [] s hs
      exact ⟨this.1, this.2.1⟩
    · have hmem : ∀ x ∈ p.risk_signals, x ∈ ((rawSignals r).filterMap trimVal).dedup :=
        fun x hx => List.mem_dedup.mpr (hsub.subset hx)
      exact (hnd.subperm hmem).length_le
    · rw [hreas, hsig]
      exact extendReasonsAux_eq _ _ _ (hsig ▸ hnd)
    · intro s hs
      rw [hreas]
      rw [hsig] at hs
      exact extendReasonsAux_covers _ _ _ (fun e he => he) s hs
  · have hp : p = neutral_profile := by
      unfold get_effective_risk_profile at h
      rw [if_neg (by simp [Bool.not_eq_true] at hd ⊢; exact hd)] at h
      simpa using h.symm
    subst hp
    cases r <;>
      simp_all [neutral_profile, rawSignals, rawReasons, trustOf, vgetD, vget,
        dictOrEmpty, listOrEmpty, lookupKV, Val.isDict]

/-- Core of the re-merge argument: a profile whose final label is a
non-empty trimmed string, whose final credibility is round-fixed, whose
signals are trimmed, non-empty and duplicate-free, and whose signals all
appear among the reasons, is reproduced (on those four components) by
merging its own output again with no new opinion. -/
theorem remerge_core (p : RiskProfile)
    (hstrip : pyStrip p.label_final = p.label_final) (hne : p.label_final ≠ "")
    (hcred : pyRound2 p.credibility_final = p.credibility_final)
    (hsiginv : ∀ s ∈ p.risk_signals, pyStrip s = s ∧ s ≠ "")
    (hnodup : p.risk_signals.Nodup)
    (hcover : ∀ s ∈ p.risk_signals, s ∈ p.reasons.map pyStr) :
    ∃ p2, get_effective_risk_profile (remerge_report p) = some p2 ∧
      p2.label_final = p.label_final ∧
      p2.credibility_final = p.credibility_final ∧
      p2.risk_signals = p.risk_signals ∧
      p2.reasons = p.reasons := by
  have hsigs : rawSignals (remerge_report p) = p.risk_signals.map Val.vstr := by
    simp [rawSignals, trustOf, remerge_report, vgetD, vget, lookupKV, dictOrEmpty,
      listOrEmpty]
  have hreas : rawReasons (remerge_report p) = p.reasons := by
    simp [rawReasons, trustOf, remerge_report, vgetD, vget, lookupKV, dictOrEmpty,
      listOrEmpty]
  have hdedup : dedupSignals (rawSignals (remerge_report p)) = p.risk_signals := by
    rw [hsigs]
    exact dedupSignalsAux_fixed p.risk_signals []
      (fun s hs => ⟨(hsiginv s hs).1, (hsiginv s hs).2, by simp⟩) hnodup
  refine ⟨_, rfl, ?_, ?_, ?_, ?_⟩
  · show get_effective_label (remerge_report p) = p.label_final
    simp [get_effective_label, remerge_report, Val.isDict, vgetD, vget, lookupKV,
      strippedNonempty, hstrip, hne]
  · show get_effective_credibility (remerge_report p) = p.credibility_final
    simp [get_effective_credibility, remerge_report, Val.isDict, vgetD, vget,
      lookupKV, pyFloat, hcred]
  · exact hdedup
  · show extendReasons (rawReasons (remerge_report p))
      (dedupSignals (rawSignals (remerge_report p))) = p.reasons
    rw [hdedup, hreas]
    exact extendReasonsAux_id _ _ _ hcover

/-- Claim C5 amended: re-merging an already-merged profile with no new
opinion reproduces its final label, final credibility, risk signals and
reasons (no duplicated signals, no credibility drift); the final risk
level however is re-inferred and is not covered by this statement. -/
theorem claim_C5_amended (r : Val) (p : RiskProfile)
    (h : get_effective_risk_profile r = some p) :
    ∃ p2, get_effective_risk_profile (remerge_report p) = some p2 ∧
      p2.label_final = p.label_final ∧
      p2.credibility_final = p.credibility_final ∧
      p2.risk_signals = p.risk_signals ∧
      p2.reasons = p.reasons := by
  by_cases hd : r.isDict
  · obtain ⟨hlabel, hcredf, hsig, hreasn, _, _, _⟩ := profile_dict_inv r p hd h
    have hstrip := get_effective_label_stripped r
    refine remerge_core p ?_ ?_ ?_ ?_ ?_ ?_
    · rw [hlabel]; exact hstrip.1
    · rw [hlabel]; exact hstrip.2
    · rw [hcredf]; exact get_effective_credibility_round_fixed r
    · intro s hs
      rw [hsig] at hs
      have := dedupSignalsAux_mem _ [] s hs
      exact ⟨this.1, this.2.1⟩
    · rw [hsig]; exact dedupSignalsAux_nodup _ []
    · intro s hs
      rw [hreasn]
      rw [hsig] at hs
      exact extendReasonsAux_covers _ _ _ (fun e he => he) s hs
  · have hp : p = neutral_profile := by
      unfold get_effective_risk_profile at h
      rw [if_neg hd] at h
      simpa using h.symm
    subst hp
    refine remerge_core neutral_profile (by decide) (by decide) ?_ ?_ ?_ ?_
    · exact pyRound2_zero
    · intro s hs; simp [neutral_profile] at hs
    · simp [neutral_profile]
    · intro s hs; simp [neutral_profile] at hs

/-- A report with an opinion that lowers credibility: classic label
`generic` with credibility 80, opinion label `scam_like` with credibility
90. -/
def C5r : Val :=
  Val.vdict [("label", Val.vstr "generic"), ("credibility", Val.vnum 80),
    ("label_llm", Val.vstr "scam_like"), ("credibility_llm", Val.vnum 90)]

/-- The merged profile of `C5r`. -/
def C5p : RiskProfile := (get_effective_risk_profile C5r).getD neutral_profile

/-- The result of re-merging `C5p` with no new opinion. -/
def C5p2 : RiskProfile :=
  (get_effective_risk_profile (remerge_report C5p)).getD neutral_profile

/-- Claim C5 counterexample: after merging `C5r` the final risk level is
`low` (inferred from the classic label and credibility), but re-merging
the merged profile with no new opinion re-infers the level from the final
label `scam_like` and blended credibility 87 and yields `high` — the
merge is not idempotent on `risk_level_final`. -/
theorem claim_C5_counterexample :
    get_effective_risk_profile C5r = some C5p ∧
    get_effective_risk_profile (remerge_report C5p) = some C5p2 ∧
    C5p.risk_level_final = "low" ∧
    C5p2.risk_level_final = "high" ∧
    ("low" : String) ≠ "high" := ⟨rfl, rfl, rfl, rfl, by decide⟩

/-- Witness for claim C5 at the concrete report `C5r`. -/
theorem claim_C5_witness :
    get_effective_risk_profile (remerge_report C5p) = some C5p2 ∧
    C5p2.label_final = C5p.label_final ∧
    C5p2.credibility_final = C5p.credibility_final ∧
    C5p2.risk_signals = C5p.risk_signals ∧
    C5p2.reasons = C5p.reasons := by
  obtain ⟨p2, h1, h2, h3, h4, h5⟩ := claim_C5_amended C5r C5p rfl
  have hp2 : C5p2 = p2 := by
    unfold C5p2
    rw [h1]
    rfl
  rw [hp2]
  exact ⟨h1, h2, h3, h4, h5⟩

/-- A report whose trust block carries untrimmed, duplicate, non-string
and blank risk-signal entries together with one pre-existing reason. -/
def C7r : Val :=
  Val.vdict [("label", Val.vstr "generic"),
    ("trust", Val.vdict
      [("reasons", Val.vlist [Val.vstr "existing reason"]),
       ("risk_signals", Val.vlist
          [Val.vstr "  sig one  ", Val.vstr "sig one", Val.vnum 5,
           Val.vstr "existing reason", Val.vstr "   "])])]

/-- The merged profile of `C7r`. -/
def C7p : RiskProfile := (get_effective_risk_profile C7r).getD neutral_profile

/-- Witness for claim C7 at the concrete report `C7r`. -/
theorem claim_C7_witness :
    C7p.risk_signals.Nodup ∧
    (∀ s ∈ C7p.risk_signals, pyStrip s = s ∧ s ≠ "") ∧
    C7p.risk_signals.Sublist ((rawSignals C7r).filterMap trimVal) ∧
    C7p.risk_signals.length ≤ ((rawSignals C7r).filterMap trimVal).dedup.length ∧
    C7p.reasons = rawReasons C7r ++
      (C7p.risk_signals.filter
        (fun s => decide (s ∉ (rawReasons C7r).map pyStr))).map Val.vstr ∧
    (∀ s ∈ C7p.risk_signals, s ∈ C7p.reasons.map pyStr) :=
  claim_C7_thm C7r C7p rfl

theorem vget_nondict (r : Val) (hd : r.isDict = false) (k : String) :
    vget r k = none := by
  cases r <;> simp_all [vget, Val.isDict]

/-- The label precedence as claim C3 (amended) describes it: the trimmed
opinion label when the opinion label is a string with non-whitespace
content, otherwise the trimmed classic label under the same condition,
otherwise the literal `"unknown"`. -/
def label_final_spec (labelLLM labelClassic : Val) : String :=
  ((strippedNonempty labelLLM).orElse
    (fun _ => strippedNonempty labelClassic)).getD "unknown"

/-- The credibility blend as claim C3 (amended) describes it: the
two-decimal rounding of `0.7·opinion + 0.3·classic` when both are
convertible to numbers, of the single present one otherwise, and `0.0`
when neither is present. -/
def credibility_final_spec (opinion classic : Option ℚ) : ℚ :=
  match opinion, classic with
  | some o, some c => pyRound2 (7/10 * o + 3/10 * c)
  | some o, none => pyRound2 o
  | none, some c => pyRound2 c
  | none, none => 0

/-- The risk-level precedence as claim C3 (amended) describes it: the
trimmed, lower-cased opinion risk level when it is a string with
non-whitespace content, otherwise the classic inferred level. -/
def risk_level_final_spec (rlLLM : Val) (inferred : String) : String :=
  match rlLLM with
  | Val.vstr s =>
    if pyStrip s = "" then inferred
    else String.mk (lowerChars (pyStrip s).data)
  | _ => inferred

/-- Claim C3 amended: the merged profile's final label, final credibility
and final risk level follow the normalized precedence rules of
`label_final_spec`, `credibility_final_spec` and `risk_level_final_spec`
(trimming the labels, rounding the blend to two decimals, lower-casing
the opinion risk level). -/
theorem claim_C3_amended (r : Val) (p : RiskProfile)
    (h : get_effective_risk_profile r = some p) :
    p.label_final =
      label_final_spec (vgetD r "label_llm" Val.vnone) (vgetD r "label" Val.vnone) ∧
    p.credibility_final =
      credibility_final_spec (pyFloat (vgetD r "credibility_llm" Val.vnone))
        (pyFloat (vgetD r "credibility" Val.vnone)) ∧
    p.risk_level_final =
      risk_level_final_spec (vgetD (trustOf r) "risk_level_llm" Val.vnone)
        p.risk_level_inferred := by
  by_cases hd : r.isDict
  · obtain ⟨hlabel, hcredf, _, _, hrll, hrlf, _⟩ := profile_dict_inv r p hd h
    refine ⟨?_, ?_, ?_⟩
    · rw [hlabel]
      unfold get_effective_label label_final_spec
      rw [if_pos hd]
      cases h1 : strippedNonempty (vgetD r "label_llm" Val.vnone) <;>
        cases h2 : strippedNonempty (vgetD r "label" Val.vnone) <;> rfl
    · rw [hcredf]
      unfold get_effective_credibility credibility_final_spec
      rw [if_pos hd]
    · rw [hrlf, hrll]
      unfold riskLevelLLMOf risk_level_final_spec
      cases hv : vgetD (trustOf r) "risk_level_llm" Val.vnone with
      | vstr s =>
        by_cases hs : pyStrip s = "" <;> simp [strippedNonempty, hs]
      | vnone => rfl
      | vbool b => rfl
      | vnum q => rfl
      | vlist l => rfl
      | vdict kvs => rfl
  · have hp : p = neutral_profile := by
      unfold get_effective_risk_profile at h
      rw [if_neg (by simp [hd])] at h
      simpa using h.symm
    subst hp
    have hb : r.isDict = false := by
      cases hbb : r.isDict
      · rfl
      · exact absurd hbb hd
    refine ⟨?_, ?_, ?_⟩
    · simp [vgetD, vget_nondict r hb, label_final_spec, strippedNonempty,
        neutral_profile, Option.orElse]
    · simp [vgetD, vget_nondict r hb, credibility_final_spec, pyFloat,
        neutral_profile]
    · have h2 : trustOf r = Val.vdict [] := by
        unfold trustOf vgetD
        rw [vget_nondict r hb]
        rfl
      rw [h2]
      rfl

/-- A report whose opinion label is padded with whitespace. -/
def C3cr : Val :=
  Val.vdict [("label", Val.vstr "promotion"), ("label_llm", Val.vstr " SCAM ")]

/-- Claim C3 counterexample: in `C3cr` the opinion label `" SCAM "` is a
non-empty string, yet `label_final` is the trimmed `"SCAM"`, not the
opinion label itself — the final label is not equal to the raw opinion
label. -/
theorem claim_C3_counterexample :
    vget C3cr "label_llm" = some (Val.vstr " SCAM ") ∧
    (" SCAM " : String) ≠ "" ∧
    (get_effective_risk_profile C3cr).map RiskProfile.label_final = some "SCAM" ∧
    (some "SCAM" : Option String) ≠ some " SCAM " :=
  ⟨rfl, by decide, rfl, by decide⟩

/-- The specification's own fusion example: opinion credibility 20,
classic credibility 80. -/
def C3r : Val :=
  Val.vdict [("credibility", Val.vnum 80), ("credibility_llm", Val.vnum 20)]

/-- The merged profile of `C3r`. -/
def C3p : RiskProfile := (get_effective_risk_profile C3r).getD neutral_profile

/-- Witness for claim C3 at the concrete report `C3r`: the blended
credibility is `0.7·20 + 0.3·80 = 38.0`. -/
theorem claim_C3_witness :
    get_effective_risk_profile C3r = some C3p ∧
    C3p.credibility_final = credibility_final_spec (some 20) (some 80) ∧
    C3p.credibility_final = 38 := by
  have h := claim_C3_amended C3r C3p rfl
  have h3 : credibility_final_spec (pyFloat (vgetD C3r "credibility_llm" Val.vnone))
      (pyFloat (vgetD C3r "credibility" Val.vnone)) =
      credibility_final_spec (some 20) (some 80) := by rfl
  have h4 : credibility_final_spec (some 20) (some 80) = 38 := by
    show pyRound2 (7/10 * 20 + 3/10 * 80) = 38
    norm_num [pyRound2, pyRound]
  exact ⟨rfl, h.2.1.trans h3, h.2.1.trans (h3.trans h4)⟩
